import Mathlib

/-!
Shallow embedding of the todoist-to-notes export pipeline
(`src/obsidian_exporter.py`, `src/core.py`, `src/todoist_client.py`)
and proofs about the claimed properties of the code.

Python strings are modelled as Lean `String`/`List Char`; Python `int` as
`Int`; `None`-able values as `Option`; raised `TodoistAPIError` as
`Except Unit`.  Calls into the Python standard library that have no
counterpart here (`unicodedata.normalize "NFKD"`, `datetime.fromisoformat`
composed with `strftime`) are modelled as function parameters collected in
`PyLib`; every theorem quantifies over them.
-/

namespace Todoist

/-- Python truthiness of an `Optional[str]`: `None` and `""` are falsy. -/
def truthyOpt : Option String → Bool
  | none => false
  | some s => !s.isEmpty

/-- The whitespace characters stripped by Python `str.strip()` (ASCII part). -/
def pyIsSpace (c : Char) : Bool :=
  c == ' ' || c == '\t' || c == '\n' || c == '\r' || c == (Char.ofNat 11) || c == (Char.ofNat 12)

/-- Python `s.strip()` on a list of characters. -/
def pyStrip (l : List Char) : List Char :=
  (l.dropWhile pyIsSpace).rdropWhile pyIsSpace

/-- Python `s.strip(chars)` for an explicit character set `p`. -/
def pyStripChars (p : Char → Bool) (l : List Char) : List Char :=
  (l.dropWhile p).rdropWhile p

/-- Python `s.replace(t, rep)` for a single-character pattern `t`. -/
def replaceChar (t : Char) (rep : List Char) : List Char → List Char
  | [] => []
  | c :: cs => (if c = t then rep else [c]) ++ replaceChar t rep cs

/-- Python `s.split(c)` for a single-character separator. -/
def splitChar (c : Char) : List Char → List (List Char)
  | [] => [[]]
  | x :: xs =>
    match splitChar c xs with
    | [] => [[x]]
    | r :: rs => if x = c then [] :: r :: rs else (x :: r) :: rs

/-- Python `sep.join(parts)` on character lists, for a one-character separator. -/
def joinChar (c : Char) : List (List Char) → List Char
  | [] => []
  | [x] => x
  | x :: y :: xs => x ++ c :: joinChar c (y :: xs)

/-- Python `sep.join(parts)` on strings. -/
def pyJoin (sep : String) : List String → String
  | [] => ""
  | [x] => x
  | x :: y :: xs => x ++ sep ++ pyJoin sep (y :: xs)

/-- Python `str.lower()` (modelled on the ASCII range). -/
def pyLower (s : String) : String := s.toLower

/-- Library calls used by the exporter that are not part of the repository:
`nfkd` stands for `unicodedata.normalize("NFKD", ·)` and `fmtTime` for
`datetime.fromisoformat(·).strftime("%d %b %H:%M")`. -/
structure PyLib where
  nfkd : String → String
  fmtTime : String → String

/-- The identity library interpretation, used to evaluate at concrete inputs. -/
def libId : PyLib := ⟨id, id⟩

/-- `unicodedata.normalize "NFKD"` is the identity on ASCII-only strings; this
property of the `nfkd` parameter is assumed where a claim needs it. -/
def AsciiId (f : String → String) : Prop :=
  ∀ s : String, (∀ c ∈ s.toList, c.toNat < 128) → f s = s

/-! ## Entity model (`src/todoist_client.py`) -/

/-- `TodoistProject` (`src/todoist_client.py`). -/
structure TodoistProject where
  id : String
  name : String
  color : String := ""
  is_shared : Bool := false
  url : String := ""
deriving DecidableEq

/-- `TodoistTask` (`src/todoist_client.py`).  The `due` dict is modelled as an
association list from keys to optional string values. -/
structure TodoistTask where
  id : String
  content : String
  description : String := ""
  project_id : String
  section_id : Option String := none
  parent_id : Option String := none
  order : Int
  priority : Int := 1
  labels : List String := []
  due : Option (List (String × Option String)) := none
  url : String := ""
  comment_count : Int := 0
  is_completed : Bool := false
  created_at : String
deriving DecidableEq

/-- `TodoistTask.due_date`: `if self.due and "date" in self.due: ...`. -/
def TodoistTask.due_date (t : TodoistTask) : Option String :=
  match t.due with
  | none => none
  | some d =>
    if d.isEmpty then none
    else
      match d.lookup "date" with
      | some (some v) => some v
      | some none => none
      | none => none

/-- `TodoistTask.priority_text`: `{4: "High", 3: "Medium", 2: "Low", 1: "None"}.get(priority, "None")`. -/
def TodoistTask.priority_text (t : TodoistTask) : String :=
  if t.priority = 4 then "High"
  else if t.priority = 3 then "Medium"
  else if t.priority = 2 then "Low"
  else if t.priority = 1 then "None"
  else "None"

/-- `TodoistComment` (`src/todoist_client.py`); the attachment dict is opaque. -/
structure TodoistComment where
  id : String
  task_id : String
  content : String
  posted_at : String
  attachment : Option (List (String × Option String)) := none
deriving DecidableEq

/-- Modelled from the spec: the Section entity ("identifier, owning project
identifier, display name, integer order").  Its class is referenced by
`src/obsidian_exporter.py` and by the tests but its definition is not among
the source files. -/
structure TodoistSection where
  id : String
  project_id : String
  name : String
  order : Int
deriving DecidableEq

/-- `ExportConfig` (`src/obsidian_exporter.py`); `output_dir` is modelled as a
string and `tag_prefix` is named `tag_ns` here. -/
structure ExportConfig where
  output_dir : String
  include_completed : Bool := false
  include_comments : Bool := true
  date_format : String := "%Y-%m-%d"
  time_format : String := "%H:%M"
  tag_ns : String := "todoist"
  priority_as_tags : Bool := true
  labels_as_tags : Bool := true
deriving DecidableEq

/-! ## `ObsidianExporter.sanitize_filename` -/

/-- The characters replaced by `re.sub(r'[<>:"/\\|?*]', "_", ·)`. -/
def forb (c : Char) : Bool :=
  c == '<' || c == '>' || c == ':' || c == '"' || c == '/' || c == '\\' ||
  c == '|' || c == '?' || c == '*'

/-- `re.sub(r"_+", "_", ·)`: collapse each run of underscores to one
(equivalently, drop every underscore that is immediately followed by
another). -/
def collapseUnd : List Char → List Char
  | [] => []
  | [c] => [c]
  | c :: d :: cs =>
    if c = '_' ∧ d = '_' then collapseUnd (d :: cs)
    else c :: collapseUnd (d :: cs)

/-- `re.sub(r'[<>:"/\\|?*]', "_", ·)`: replace every forbidden character by an
underscore. -/
def replaceForb (l : List Char) : List Char :=
  l.map (fun c => if forb c then '_' else c)

/-- `·.strip("_ ")`: remove leading/trailing underscores and spaces. -/
def stripUndSpace (l : List Char) : List Char :=
  pyStripChars (fun c => c == '_' || c == ' ') l

/-- `if len(s) > 200: s = s[:200].rstrip("_")`. -/
def truncate200 (l : List Char) : List Char :=
  if 200 < l.length then (l.take 200).rdropWhile (· == '_') else l

/-- The character pipeline of `sanitize_filename`: NFKD-normalize, keep only
codepoints below 128 (`encode("ascii", "ignore")`), replace forbidden
characters, collapse underscore runs, strip `_`/space at both ends, truncate
to 200 characters re-trimming trailing underscores. -/
def sanitizedCore (nfkd : String → String) (name : String) : List Char :=
  truncate200 (stripUndSpace (collapseUnd (replaceForb
    ((nfkd name).toList.filter (fun c => c.toNat < 128)))))

/-- `ObsidianExporter.sanitize_filename` (`src/obsidian_exporter.py`), with the
`unicodedata.normalize "NFKD"` call abstracted as `nfkd`. -/
def sanitize_filename (nfkd : String → String) (name : String) : String :=
  if (sanitizedCore nfkd name).isEmpty then "untitled"
  else String.mk (sanitizedCore nfkd name)

/-! ## `ObsidianExporter.format_yaml_string` -/

/-- The escaping step of `format_yaml_string`: escape backslashes first, then
double quotes, then newlines, then tabs (four sequential `str.replace` calls). -/
def yamlEscape (l : List Char) : List Char :=
  replaceChar '\t' ['\\', 't']
    (replaceChar '\n' ['\\', 'n']
      (replaceChar '"' ['\\', '"']
        (replaceChar '\\' ['\\', '\\'] l)))

/-- `ObsidianExporter.format_yaml_string` (`src/obsidian_exporter.py`). -/
def format_yaml_string (value : String) : String :=
  let l := value.toList
  if l.contains '\'' && !l.contains '"' then
    String.mk ('"' :: l ++ ['"'])
  else if l.contains '"' && !l.contains '\'' then
    String.mk ('\'' :: l ++ ['\''])
  else if l.contains '"' || l.contains '\'' || l.contains '\n' || l.contains '\t'
      || l.contains '\\' then
    String.mk ('"' :: yamlEscape l ++ ['"'])
  else
    String.mk ('"' :: l ++ ['"'])

/-- The escaping rule in the words of the spec (claim C3): single quotes if the
value has a double quote and no single quote; double quotes if it has a single
quote and no double quote; otherwise (neither or both kinds, or a newline, tab
or backslash present) double quotes with backslash-first escaping. -/
def yaml_rule_spec (value : String) : String :=
  let l := value.toList
  if l.contains '"' && !l.contains '\'' then
    String.mk ('\'' :: l ++ ['\''])
  else if l.contains '\'' && !l.contains '"' then
    String.mk ('"' :: l ++ ['"'])
  else
    String.mk ('"' :: yamlEscape l ++ ['"'])

/-! ## `ObsidianExporter.format_tags` -/

/-- `name.lower().replace(" ", "-")`, the preprocessing applied to project
names and labels before sanitization. -/
def lowerDash (s : String) : String :=
  String.mk (replaceChar ' ' ['-'] (pyLower s).toList)

/-- `ObsidianExporter.format_tags` (`src/obsidian_exporter.py`). -/
def format_tags (lib : PyLib) (cfg : ExportConfig) (task : TodoistTask)
    (project : TodoistProject) : List String :=
  ["#" ++ cfg.tag_ns]
  ++ ["#" ++ cfg.tag_ns ++ "/" ++ sanitize_filename lib.nfkd (lowerDash project.name)]
  ++ (if cfg.priority_as_tags && decide (1 < task.priority) then
        ["#" ++ cfg.tag_ns ++ "/priority/" ++ pyLower task.priority_text]
      else [])
  ++ (if cfg.labels_as_tags then
        task.labels.map (fun label =>
          "#" ++ cfg.tag_ns ++ "/label/" ++ sanitize_filename lib.nfkd (lowerDash label))
      else [])
  ++ ["#" ++ cfg.tag_ns ++ "/status/" ++ (if task.is_completed then "completed" else "active")]

/-- The priority-to-label mapping in the words of the spec (claim C8):
4→High, 3→Medium, 2→Low, 1→None, anything outside [1,4]→None. -/
def spec_priority_label (p : Int) : String :=
  if p = 4 then "High"
  else if p = 3 then "Medium"
  else if p = 2 then "Low"
  else "None"

/-- The tag list in the words of the spec (claim C8): bare namespace tag, then
namespace/sanitized-project, then the conditional priority tag, then one label
tag per task label in order, then the status tag. -/
def spec_tags (lib : PyLib) (cfg : ExportConfig) (task : TodoistTask)
    (project : TodoistProject) : List String :=
  ["#" ++ cfg.tag_ns]
  ++ ["#" ++ cfg.tag_ns ++ "/" ++ sanitize_filename lib.nfkd (lowerDash project.name)]
  ++ (if cfg.priority_as_tags && decide (1 < task.priority) then
        ["#" ++ cfg.tag_ns ++ "/priority/" ++ pyLower (spec_priority_label task.priority)]
      else [])
  ++ (if cfg.labels_as_tags then
        task.labels.map (fun label =>
          "#" ++ cfg.tag_ns ++ "/label/" ++ sanitize_filename lib.nfkd (lowerDash label))
      else [])
  ++ ["#" ++ cfg.tag_ns ++ "/status/" ++ (if task.is_completed then "completed" else "active")]

/-! ## `ObsidianExporter.format_frontmatter` -/

/-- The list of frontmatter lines built by `format_frontmatter`
(`src/obsidian_exporter.py`), before the `"\n".join`. -/
def frontmatterLines (lib : PyLib) (cfg : ExportConfig) (task : TodoistTask)
    (project : TodoistProject) (sect : Option TodoistSection) : List String :=
  ["---"]
  ++ ["title: " ++ format_yaml_string task.content]
  ++ ["todoist_id: " ++ format_yaml_string task.id]
  ++ ["project: " ++ format_yaml_string project.name]
  ++ ["project_id: \"" ++ project.id ++ "\""]
  ++ (match sect with
      | some s => ["section: " ++ format_yaml_string s.name,
                   "section_id: \"" ++ s.id ++ "\""]
      | none => [])
  ++ ["created: \"" ++ task.created_at ++ "\""]
  ++ (match task.due_date with
      | some d => if d.isEmpty then [] else ["due_date: \"" ++ d ++ "\""]
      | none => [])
  ++ ["priority: " ++ toString task.priority]
  ++ ["priority_text: \"" ++ task.priority_text ++ "\""]
  ++ (if task.labels.isEmpty then []
      else ["labels: [\"" ++ pyJoin "\", \"" task.labels ++ "\"]"])
  ++ ["completed: " ++ (if task.is_completed then "true" else "false")]
  ++ (if task.url.isEmpty then [] else ["todoist_url: \"" ++ task.url ++ "\""])
  ++ (let tags := format_tags lib cfg task project
      if tags.isEmpty then []
      else ["tags: [\"" ++
            pyJoin "\", \"" (tags.map (fun t => String.mk (t.toList.dropWhile (· == '#')))) ++
            "\"]"])

/-- `ObsidianExporter.format_frontmatter` (`src/obsidian_exporter.py`). -/
def format_frontmatter (lib : PyLib) (cfg : ExportConfig) (task : TodoistTask)
    (project : TodoistProject) (sect : Option TodoistSection) : String :=
  pyJoin "\n" (frontmatterLines lib cfg task project sect ++ ["---", ""])

/-! ## `ObsidianExporter.format_task_content` -/

/-- One checkbox line of the Subtasks block. -/
def childLine (c : TodoistTask) : String :=
  "- " ++ (if c.is_completed then "[x]" else "[ ]") ++ " " ++ c.content

/-- The `key=lambda t: t.order` comparison of the `sorted` call. -/
def orderRel (a b : TodoistTask) : Prop := a.order ≤ b.order

instance : DecidableRel orderRel := fun a b => Int.decLe a.order b.order

instance : IsTotal TodoistTask orderRel := ⟨fun a b => Int.le_total a.order b.order⟩

instance : IsTrans TodoistTask orderRel := ⟨fun _ _ _ => Int.le_trans⟩

/-- The Subtasks block of `format_task_content`: heading, blank line, one
checkbox line per child sorted by `order` (Python `sorted` is a stable sort;
it is modelled by the stable `List.insertionSort`, to which every stable sort
is extensionally equal), then a blank line. -/
def subtasksLines (cs : List TodoistTask) : List String :=
  ["## Subtasks", ""]
  ++ (List.insertionSort orderRel cs).map childLine
  ++ [""]

/-- One line of the Comments block: the `"Z" → "+00:00"` rewrite is from the
source; parsing and `strftime` are the `fmtTime` library parameter. -/
def commentLine (lib : PyLib) (cm : TodoistComment) : String :=
  "* " ++ lib.fmtTime (String.mk (replaceChar 'Z' ['+', '0', '0', ':', '0', '0'] cm.posted_at.toList))
  ++ " - " ++ cm.content

/-- `ObsidianExporter.format_task_content` (`src/obsidian_exporter.py`). -/
def format_task_content (lib : PyLib) (cfg : ExportConfig) (task : TodoistTask)
    (project : TodoistProject) (comments : Option (List TodoistComment))
    (child_tasks : Option (List TodoistTask)) (sect : Option TodoistSection) : String :=
  let contents :=
    [format_frontmatter lib cfg task project sect]
    ++ ["# " ++ (if task.is_completed then "✅" else "⬜") ++ " " ++ task.content, ""]
    ++ (if task.description.isEmpty then []
        else ["## Description", "", task.description, ""])
    ++ (match child_tasks with
        | some cs => if cs.isEmpty then [] else subtasksLines cs
        | none => [])
    ++ (match comments with
        | some cms =>
          if !cms.isEmpty && cfg.include_comments then
            ["## Comments", ""] ++ cms.map (commentLine lib)
          else []
        | none => [])
  pyJoin "\n" contents

/-! ## `ObsidianExporter.get_output_path` and `export_task` -/

/-- `ObsidianExporter.get_output_path` (`src/obsidian_exporter.py`): the path is
`output_dir / f"{task.id}.md"`; the project argument is unused (`noqa: ARG002`). -/
def get_output_path (cfg : ExportConfig) (task : TodoistTask)
    (_project : TodoistProject) : String :=
  cfg.output_dir ++ "/" ++ task.id ++ ".md"

/-- What a read of the pre-existing file at the output path can yield: no file,
a raised exception, or the file's content. -/
inductive FileRead where
  | absent
  | readError
  | content (s : String)
deriving DecidableEq

/-- The indices of the lines whose stripped text is `"---"` (the `separators`
list built in `export_task`). -/
def sepIdxs (lines : List (List Char)) : List Nat :=
  (lines.enum.filterMap (fun p => if pyStrip p.2 = ['-', '-', '-'] then some p.1 else none))

/-- The tail of `export_task`'s user-content computation: given the lines after
the third separator, keep them (joined back with newlines, preceded by a hard
separator) only when some line is non-blank (`if user_lines and
any(line.strip() ...)` followed by the redundant `if existing_user_content.strip()`
check of the source). -/
def preservedFromLines (user_lines : List (List Char)) : String :=
  if !user_lines.isEmpty && user_lines.any (fun l => !(pyStrip l).isEmpty) then
    if !(pyStrip (joinChar '\n' user_lines)).isEmpty then
      "\n\n---\n\n" ++ String.mk (joinChar '\n' user_lines)
    else String.mk (joinChar '\n' user_lines)
  else ""

/-- The `existing_user_content` computed by `export_task` from the text of the
pre-existing file: split into lines, find the `---` separator lines, and if at
least three exist take everything after the third one. -/
def preservedOf (s : String) : String :=
  match (sepIdxs (splitChar '\n' s.toList)).drop 2 with
  | i3 :: _ => preservedFromLines ((splitChar '\n' s.toList).drop (i3 + 1))
  | [] => ""

/-- The `existing_user_content` string computed by `export_task`
(`src/obsidian_exporter.py`): empty unless the existing file has at least three
separator lines and the region after the third one contains a non-blank line,
in which case it is a hard separator followed by that region. -/
def preservedSuffix (existing : FileRead) : String :=
  match existing with
  | .absent => ""
  | .readError => ""
  | .content s => preservedOf s

/-- `ObsidianExporter.export_task` (`src/obsidian_exporter.py`), as a pure
function of the read of the pre-existing file: it returns the output path and
the content written there (`none` when the completed-task skip applies and the
filesystem is untouched). -/
def export_task (lib : PyLib) (cfg : ExportConfig) (task : TodoistTask)
    (project : TodoistProject) (comments : Option (List TodoistComment))
    (child_tasks : Option (List TodoistTask)) (sect : Option TodoistSection)
    (existing : FileRead) : String × Option String :=
  let output_path := get_output_path cfg task project
  if task.is_completed && !cfg.include_completed then (output_path, none)
  else
    (output_path,
     some (format_task_content lib cfg task project comments child_tasks sect ++
           preservedSuffix existing))

/-! ## Orchestrator (`src/core.py`, `export_tasks_internal`) -/

/-- The outcomes of the `TodoistClient` calls made during one run, plus the
per-task outcome of the filesystem/rendering side of `exporter.export_task`
(`write_fails t.id = true` models the exception caught at the per-task
`try/except` in `src/core.py`) and the initial filesystem. -/
structure Client where
  projects : Except Unit (List TodoistProject)
  tasks_result : Except Unit (List TodoistTask)
  completed_result : Except Unit (List TodoistTask)
  comments_result : String → Except Unit (List TodoistComment)
  write_fails : String → Bool
  fs0 : String → FileRead

/-- `projects_dict = {p.id: p for p in projects}` followed by `.get`: a Python
dict comprehension is last-write-wins on duplicate ids. -/
def lookupProject (projects : List TodoistProject) (i : String) : Option TodoistProject :=
  projects.reverse.find? (fun p => p.id == i)

/-- The `child_tasks_by_parent` grouping of `src/core.py`: the bucket for
parent id `pid` holds, in fetch order, the tasks whose `parent_id` is truthy
and equal to `pid`. -/
def childrenOf (tasks : List TodoistTask) (pid : String) : List TodoistTask :=
  tasks.filter (fun t => truthyOpt t.parent_id && t.parent_id == some pid)

/-- Update of the filesystem after writing `content` at `path`. -/
def fsWrite (fs : String → FileRead) (path content : String) : String → FileRead :=
  fun q => if q = path then .content content else fs q

/-- The comments passed to `export_task` for one task: fetched when comment
inclusion is enabled (a fetch failure is caught and leaves them `None`),
otherwise `None` (`src/core.py`). -/
def commentsFor (client : Client) (cfg : ExportConfig) (tid : String) :
    Option (List TodoistComment) :=
  if cfg.include_comments then
    match client.comments_result tid with
    | .ok cs => some cs
    | .error _ => none
  else none

/-- The `for task in parent_tasks` loop of `export_tasks_internal`
(`src/core.py`): per task, resolve the project (skip if unresolved), skip
completed tasks when they are not included, fetch comments when enabled
(failures downgraded to no comments), and export, counting a task whenever
`export_task` returns without an exception.  Note that `src/core.py` passes no
section to `export_task`. -/
def exportLoop (lib : PyLib) (client : Client) (cfg : ExportConfig)
    (include_completed : Bool) (projects : List TodoistProject)
    (kids : String → List TodoistTask) :
    List TodoistTask → (String → FileRead) → Nat → List (String × String) →
    Nat × List (String × String)
  | [], _fs, n, ws => (n, ws)
  | t :: rest, fs, n, ws =>
    match lookupProject projects t.project_id with
    | none => exportLoop lib client cfg include_completed projects kids rest fs n ws
    | some proj =>
      if t.is_completed && !include_completed then
        exportLoop lib client cfg include_completed projects kids rest fs n ws
      else
        if client.write_fails t.id then
          exportLoop lib client cfg include_completed projects kids rest fs n ws
        else
          match export_task lib cfg t proj (commentsFor client cfg t.id)
              (some (kids t.id)) none (fs (get_output_path cfg t proj)) with
          | (_, none) =>
            exportLoop lib client cfg include_completed projects kids rest fs (n + 1) ws
          | (path, some content) =>
            exportLoop lib client cfg include_completed projects kids rest
              (fsWrite fs path content) (n + 1) (ws ++ [(path, content)])

/-- The part of `export_tasks_internal` from the `if not tasks` check on: group
by parent/child and run the export loop over the top-level tasks, returning the
final count and the log of writes performed. -/
def runWithTasks (lib : PyLib) (client : Client) (cfg : ExportConfig)
    (include_completed : Bool) (projects : List TodoistProject)
    (tasks : List TodoistTask) : Nat × List (String × String) :=
  if tasks.isEmpty then (0, [])
  else
    let parent_tasks := tasks.filter (fun t => !truthyOpt t.parent_id)
    exportLoop lib client cfg include_completed projects (childrenOf tasks)
      parent_tasks client.fs0 0 []

/-- The project-name resolution of `export_tasks_internal` (`src/core.py`):
when a truthy name filter is given without a truthy explicit id, the first
case-insensitive exact match is taken and a miss raises; otherwise the given
id (possibly `None`) passes through. -/
def resolveTarget (projects : List TodoistProject)
    (project_id project_name : Option String) : Except Unit (Option String) :=
  if truthyOpt project_name && !truthyOpt project_id then
    match projects.filter
        (fun p => pyLower p.name == pyLower (project_name.getD "")) with
    | [] => .error ()
    | m :: _ => .ok (some m.id)
  else .ok project_id

/-- The completed-task merge of `export_tasks_internal` (`src/core.py`): when
requested and the completed fetch succeeds, append the completed tasks whose
id is not already present (a fetch failure is caught and ignored). -/
def mergedTasks (client : Client) (include_completed : Bool)
    (tasks0 : List TodoistTask) : List TodoistTask :=
  if include_completed then
    match client.completed_result with
    | .ok comp =>
      tasks0 ++ comp.filter (fun ct => !(tasks0.any (fun t => t.id == ct.id)))
    | .error _ => tasks0
  else tasks0

/-- `export_tasks_internal` (`src/core.py`).  `Except.error ()` models an
uncaught `TodoistAPIError` aborting the run; on success the returned pair is
the exported count and the write log. -/
def export_tasks_internal (lib : PyLib) (client : Client) (cfg : ExportConfig)
    (project_id project_name : Option String) (include_completed : Bool) :
    Except Unit (Nat × List (String × String)) :=
  match client.projects with
  | .error e => .error e
  | .ok projects =>
    match resolveTarget projects project_id project_name with
    | .error e => .error e
    | .ok _target =>
      match client.tasks_result with
      | .error e => .error e
      | .ok tasks0 =>
        .ok (runWithTasks lib client cfg include_completed projects
          (mergedTasks client include_completed tasks0))

/-! ## Helper lemmas -/

theorem replaceChar_of_not_mem {t : Char} {rep : List Char} {l : List Char}
    (h : t ∉ l) : replaceChar t rep l = l := by
  induction l with
  | nil => rfl
  | cons c cs ih =>
    simp only [replaceChar]
    rw [if_neg, ih (fun hm => h (List.mem_cons_of_mem _ hm))]
    · simp
    · rintro rfl
      exact h (List.mem_cons_self _ _)

theorem yamlEscape_of_plain {l : List Char} (h1 : '\\' ∉ l) (h2 : '"' ∉ l)
    (h3 : '\n' ∉ l) (h4 : '\t' ∉ l) : yamlEscape l = l := by
  unfold yamlEscape
  rw [replaceChar_of_not_mem h1, replaceChar_of_not_mem h2,
    replaceChar_of_not_mem h3, replaceChar_of_not_mem h4]

/-! ## Claim theorems -/

/-- C6: `get_output_path` depends only on the task's id and the configured
output directory; for any two tasks with the same id and any two projects the
returned path is identical, so renames of the title never move the file. -/
theorem get_output_path_id_only (cfg : ExportConfig) (t1 t2 : TodoistTask)
    (p1 p2 : TodoistProject) (h : t1.id = t2.id) :
    get_output_path cfg t1 p1 = get_output_path cfg t2 p2 := by
  simp [get_output_path, h]

theorem get_output_path_id_only_witness :
    ({ id := "7", content := "a", project_id := "1", order := 1,
       created_at := "c" } : TodoistTask).id =
      ({ id := "7", content := "renamed", project_id := "2", order := 2,
         created_at := "d" } : TodoistTask).id ∧
    get_output_path { output_dir := "out" }
        { id := "7", content := "a", project_id := "1", order := 1,
          created_at := "c" } { id := "1", name := "P" } =
      get_output_path { output_dir := "out" }
        { id := "7", content := "renamed", project_id := "2", order := 2,
          created_at := "d" } { id := "2", name := "Q" } :=
  ⟨rfl, get_output_path_id_only { output_dir := "out" } _ _ _ _ rfl⟩

/-- C3: `format_yaml_string` agrees with the spec's escaping rule on every
input string: single quotes when the value has a double quote and no single
quote, plain double quotes when it has a single quote and no double quote, and
escaped double quotes otherwise (the escape is the identity on strings with no
backslash, double quote, newline or tab, which covers the plain final case of
the code). -/
theorem format_yaml_string_spec (value : String) :
    format_yaml_string value = yaml_rule_spec value := by
  unfold format_yaml_string yaml_rule_spec
  simp only [List.contains, List.elem_eq_mem]
  by_cases hsq : '\'' ∈ value.data <;> by_cases hdq : '"' ∈ value.data
  · simp [hsq, hdq]
  · simp [hsq, hdq]
  · simp [hsq, hdq]
  · by_cases hnl : '\n' ∈ value.data
    · simp [hsq, hdq, hnl]
    · by_cases htb : '\t' ∈ value.data
      · simp [hsq, hdq, hnl, htb]
      · by_cases hbs : '\\' ∈ value.data
        · simp [hsq, hdq, hnl, htb, hbs]
        · simp [hsq, hdq, hnl, htb, hbs, yamlEscape_of_plain hbs hdq hnl htb]

/-- C8: `format_tags` returns exactly the spec's tag list in the spec's order:
bare namespace, namespace/sanitized-project, the conditional priority tag with
the fixed 4/3/2/1→High/Medium/Low/None mapping (out-of-range priorities map to
None), one label tag per label in task order when enabled, and the status
tag. -/
theorem format_tags_spec (lib : PyLib) (cfg : ExportConfig) (task : TodoistTask)
    (project : TodoistProject) :
    format_tags lib cfg task project = spec_tags lib cfg task project := by
  have hp : task.priority_text = spec_priority_label task.priority := by
    unfold TodoistTask.priority_text spec_priority_label
    split_ifs <;> rfl
  unfold format_tags spec_tags
  rw [hp]

/-! ## Lemmas about `sanitize_filename` (claim C7) -/

/-- Absence of doubled underscores, as a relation between adjacent characters. -/
def noDouble (a b : Char) : Prop := ¬(a = '_' ∧ b = '_')

instance : DecidableRel noDouble := fun a b =>
  inferInstanceAs (Decidable (¬(a = '_' ∧ b = '_')))

theorem mem_collapseUnd {x : Char} : ∀ {l : List Char}, x ∈ collapseUnd l → x ∈ l
  | [], h => h
  | [_c], h => h
  | c :: d :: cs, h => by
    rw [collapseUnd] at h
    split at h
    · exact List.mem_cons_of_mem _ (mem_collapseUnd h)
    · rcases List.mem_cons.mp h with rfl | h
      · exact List.mem_cons_self _ _
      · exact List.mem_cons_of_mem _ (mem_collapseUnd h)

theorem collapseUnd_head? : ∀ (l : List Char), (collapseUnd l).head? = l.head?
  | [] => rfl
  | [_c] => rfl
  | c :: d :: cs => by
    rw [collapseUnd]
    split
    · rename_i hcd
      rw [collapseUnd_head? (d :: cs)]
      simp [hcd.1, hcd.2]
    · rfl

theorem chain'_collapseUnd : ∀ (l : List Char), List.Chain' noDouble (collapseUnd l)
  | [] => List.chain'_nil
  | [c] => List.chain'_singleton c
  | c :: d :: cs => by
    rw [collapseUnd]
    split
    · exact chain'_collapseUnd (d :: cs)
    · rename_i hcd
      rw [List.chain'_cons']
      refine ⟨?_, chain'_collapseUnd (d :: cs)⟩
      intro y hy
      rw [collapseUnd_head? (d :: cs)] at hy
      simp only [List.head?_cons, Option.mem_def, Option.some.injEq] at hy
      subst hy
      exact fun hc => hcd ⟨hc.1, hc.2⟩

theorem stripUndSpace_sublist (l : List Char) : List.Sublist (stripUndSpace l) l := by
  unfold stripUndSpace pyStripChars
  exact (List.IsPrefix.sublist (List.rdropWhile_prefix _ _)).trans
    (List.IsSuffix.sublist (List.dropWhile_suffix _))

theorem truncate200_sublist (l : List Char) : List.Sublist (truncate200 l) l := by
  unfold truncate200
  split
  · exact (List.IsPrefix.sublist
      ((List.rdropWhile_prefix _ _).trans (List.take_prefix _ _)))
  · exact List.Sublist.refl l

theorem chain'_stripUndSpace {l : List Char} (hc : List.Chain' noDouble l) :
    List.Chain' noDouble (stripUndSpace l) := by
  unfold stripUndSpace pyStripChars
  exact List.Chain'.prefix (List.Chain'.suffix hc (List.dropWhile_suffix _))
    (List.rdropWhile_prefix _ _)

theorem chain'_truncate200 {l : List Char} (hc : List.Chain' noDouble l) :
    List.Chain' noDouble (truncate200 l) := by
  unfold truncate200
  split
  · have h1 : List.Chain' noDouble (l.take 200) :=
      List.Chain'.prefix hc (List.take_prefix _ _)
    exact List.Chain'.prefix h1 (List.rdropWhile_prefix _ _)
  · exact hc

theorem truncate200_length (l : List Char) : (truncate200 l).length ≤ 200 := by
  unfold truncate200
  split
  · calc ((l.take 200).rdropWhile (· == '_')).length
        ≤ (l.take 200).length := (List.rdropWhile_prefix _ _).sublist.length_le
      _ ≤ 200 := l.length_take_le 200
  · omega

theorem stripUndSpace_length (l : List Char) : (stripUndSpace l).length ≤ l.length :=
  (stripUndSpace_sublist l).length_le

theorem forb_ascii {c : Char} (h : forb c = true) : c.toNat < 128 := by
  simp only [forb, Bool.or_eq_true, beq_iff_eq] at h
  rcases h with ((((((((h | h) | h) | h) | h) | h) | h) | h) | h) <;> subst h <;> decide

theorem mem_replaceForb {c : Char} {l : List Char} (h : c ∈ replaceForb l) :
    c = '_' ∨ (c ∈ l ∧ forb c = false) := by
  unfold replaceForb at h
  rcases List.mem_map.mp h with ⟨x, hx, hc⟩
  by_cases hf : forb x = true
  · left
    rw [← hc, if_pos hf]
  · right
    rw [← hc, if_neg hf]
    exact ⟨hx, by simpa using hf⟩

theorem collapseUnd_replicate :
    ∀ {l : List Char}, (∀ c ∈ l, c = '_') → l ≠ [] → collapseUnd l = ['_']
  | [], _, hne => absurd rfl hne
  | [c], h, _ => by
    have hc := h c (List.mem_singleton.mpr rfl)
    subst hc
    rfl
  | c :: d :: cs, h, _ => by
    have hc := h c (List.mem_cons_self _ _)
    have hd := h d (List.mem_cons_of_mem _ (List.mem_cons_self _ _))
    rw [collapseUnd, if_pos ⟨hc, hd⟩]
    exact collapseUnd_replicate (fun x hx => h x (List.mem_cons_of_mem _ hx))
      (List.cons_ne_nil _ _)

theorem collapseUnd_all_und {l : List Char} (h : ∀ c ∈ l, c = '_') :
    stripUndSpace (collapseUnd l) = [] := by
  cases l with
  | nil => rfl
  | cons c cs =>
    rw [collapseUnd_replicate h (List.cons_ne_nil _ _)]
    rfl

/-- C7: every output of `sanitize_filename` is pure ASCII, at most 200
characters, free of the forbidden characters `<>:"/\|?*` and of doubled
underscores; and (using that NFKD normalization is the identity on ASCII
strings) an input consisting solely of forbidden characters sanitizes to
exactly "untitled".  The definition itself is the spec's pipeline: NFKD,
drop non-ASCII, replace forbidden characters by `_`, collapse `_` runs,
strip `_`/space at the ends, truncate to 200 re-trimming a trailing `_`,
and fall back to "untitled" when empty. -/
theorem sanitize_filename_spec (nfkd : String → String) (hid : AsciiId nfkd)
    (name : String) :
    (∀ c ∈ (sanitize_filename nfkd name).toList, c.toNat < 128) ∧
    (sanitize_filename nfkd name).toList.length ≤ 200 ∧
    (∀ c ∈ (sanitize_filename nfkd name).toList, forb c = false) ∧
    List.Chain' noDouble (sanitize_filename nfkd name).toList ∧
    ((∀ c ∈ name.toList, forb c = true) → sanitize_filename nfkd name = "untitled") := by
  have huntitled : (∀ c ∈ name.toList, forb c = true) →
      sanitize_filename nfkd name = "untitled" := by
    intro hall
    have hascii : ∀ c ∈ name.toList, c.toNat < 128 :=
      fun c hc => forb_ascii (hall c hc)
    unfold sanitize_filename sanitizedCore
    rw [hid name hascii]
    rw [List.filter_eq_self.mpr (fun a ha => by simpa using hascii a ha)]
    have hund : ∀ c ∈ replaceForb name.toList, c = '_' := by
      intro c hc
      rcases mem_replaceForb hc with h | ⟨hmem, hforb⟩
      · exact h
      · rw [hall c hmem] at hforb
        cases hforb
    rw [collapseUnd_all_und hund]
    rfl
  have hsub : ∀ c ∈ sanitizedCore nfkd name,
      c = '_' ∨ (c ∈ (nfkd name).toList.filter (fun c => c.toNat < 128) ∧ forb c = false) := by
    intro c hc
    unfold sanitizedCore at hc
    have h1 := (truncate200_sublist _).subset hc
    have h2 := (stripUndSpace_sublist _).subset h1
    exact mem_replaceForb (mem_collapseUnd h2)
  have htl : ∀ l : List Char, (String.mk l).toList = l := fun _ => rfl
  refine ⟨?_, ?_, ?_, ?_, huntitled⟩
  · -- every character is ASCII
    unfold sanitize_filename
    split
    · decide
    · rw [htl]
      intro c hc
      rcases hsub c hc with h | ⟨hmem, _⟩
      · subst h; decide
      · exact of_decide_eq_true (List.mem_filter.mp hmem).2
  · -- length at most 200
    unfold sanitize_filename
    split
    · decide
    · rw [htl]
      exact truncate200_length _
  · -- no forbidden character remains
    unfold sanitize_filename
    split
    · decide
    · rw [htl]
      intro c hc
      rcases hsub c hc with h | ⟨_, hforb⟩
      · subst h; decide
      · exact hforb
  · -- no doubled underscore
    unfold sanitize_filename
    split
    · rw [show "untitled".toList = ['u', 'n', 't', 'i', 't', 'l', 'e', 'd'] from rfl]
      simp only [List.chain'_cons, List.chain'_singleton, noDouble, and_true]
      decide
    · rw [htl]
      exact chain'_truncate200 (chain'_stripUndSpace (chain'_collapseUnd _))

theorem sanitize_filename_spec_witness :
    sanitize_filename id "<>:\"/\\|?*" = "untitled" :=
  (sanitize_filename_spec id (fun _ _ => rfl) "<>:\"/\\|?*").2.2.2.2 (by decide)

/-- C2: for a completed task with completed-task inclusion disabled,
`export_task` returns the task's output path and writes nothing, and the
orchestrator loop over the remaining tasks is unchanged by the task's
presence: the filesystem argument, the exported count and the write log all
stay exactly as they were. -/
theorem completed_skip (lib : PyLib) (client : Client) (cfg : ExportConfig)
    (inc : Bool) (projects : List TodoistProject) (kids : String → List TodoistTask)
    (t : TodoistTask) (rest : List TodoistTask) (fs : String → FileRead)
    (n : Nat) (ws : List (String × String)) (proj : TodoistProject)
    (comments : Option (List TodoistComment)) (children : Option (List TodoistTask))
    (sect : Option TodoistSection) (existing : FileRead)
    (hc : t.is_completed = true) (hcfg : cfg.include_completed = false)
    (hinc : inc = false) :
    export_task lib cfg t proj comments children sect existing =
      (get_output_path cfg t proj, none) ∧
    exportLoop lib client cfg inc projects kids (t :: rest) fs n ws =
      exportLoop lib client cfg inc projects kids rest fs n ws := by
  constructor
  · unfold export_task
    rw [hc, hcfg]
    rfl
  · rw [exportLoop]
    cases hl : lookupProject projects t.project_id with
    | none => rfl
    | some proj' =>
      rw [hc, hinc]
      rfl

theorem completed_skip_witness :
    export_task libId { output_dir := "out", include_completed := false }
        { id := "9", content := "done", project_id := "1", order := 1,
          is_completed := true, created_at := "c" }
        { id := "1", name := "P" } none none none .absent =
      ("out/9.md", none) :=
  (completed_skip libId
    { projects := .ok [], tasks_result := .ok [], completed_result := .ok [],
      comments_result := fun _ => .ok [], write_fails := fun _ => false,
      fs0 := fun _ => .absent }
    { output_dir := "out", include_completed := false } false [] (fun _ => [])
    { id := "9", content := "done", project_id := "1", order := 1,
      is_completed := true, created_at := "c" }
    [] (fun _ => .absent) 0 [] { id := "1", name := "P" } none none none .absent
    rfl rfl rfl).1


/-! ## Lemmas about `export_task`'s user-content preservation (claim C1) -/

theorem mem_dropWhile_of_neg {p : Char → Bool} {c : Char} :
    ∀ {l : List Char}, c ∈ l → p c = false → c ∈ l.dropWhile p := by
  intro l
  induction l with
  | nil => intro h; cases h
  | cons a as ih =>
    intro hc hp
    by_cases ha : p a = true
    · rw [List.dropWhile_cons_of_pos ha]
      rcases List.mem_cons.mp hc with rfl | hc
      · rw [hp] at ha; cases ha
      · exact ih hc hp
    · rw [List.dropWhile_cons_of_neg ha]
      exact hc

theorem mem_pyStrip {c : Char} {l : List Char} (hc : c ∈ l)
    (hp : pyIsSpace c = false) : c ∈ pyStrip l := by
  unfold pyStrip List.rdropWhile
  rw [List.mem_reverse]
  exact mem_dropWhile_of_neg (by rw [List.mem_reverse]; exact mem_dropWhile_of_neg hc hp) hp

theorem pyStrip_not_empty {l : List Char} (h : ∃ c ∈ l, pyIsSpace c = false) :
    (pyStrip l).isEmpty = false := by
  rcases h with ⟨c, hc, hp⟩
  rw [List.isEmpty_eq_false]
  intro hnil
  have hmem := mem_pyStrip hc hp
  rw [hnil] at hmem
  exact List.not_mem_nil c hmem

theorem exists_nonspace_of_pyStrip {l : List Char} (h : (pyStrip l).isEmpty = false) :
    ∃ c ∈ l, pyIsSpace c = false := by
  by_contra hall
  push_neg at hall
  have hsp : ∀ c ∈ l, pyIsSpace c = true := by
    intro c hc
    have := hall c hc
    revert this
    cases pyIsSpace c <;> simp
  have h1 : l.dropWhile pyIsSpace = [] := List.dropWhile_eq_nil_iff.mpr hsp
  unfold pyStrip at h
  rw [h1, List.rdropWhile_nil] at h
  cases h

theorem mem_joinChar {c : Char} {sep : Char} :
    ∀ {ls : List (List Char)} {L : List Char}, L ∈ ls → c ∈ L → c ∈ joinChar sep ls := by
  intro ls
  induction ls with
  | nil => intro L h; cases h
  | cons x xs ih =>
    intro L hL hc
    cases xs with
    | nil =>
      rw [joinChar]
      rw [List.mem_singleton.mp hL] at hc
      exact hc
    | cons y ys =>
      rw [joinChar]
      rcases List.mem_cons.mp hL with rfl | h
      · exact List.mem_append_left _ hc
      · exact List.mem_append_right _ (List.mem_cons_of_mem _ (ih h hc))

theorem preservedFromLines_pos {ul : List (List Char)}
    (h : ul.any (fun l => !(pyStrip l).isEmpty) = true) :
    preservedFromLines ul = "\n\n---\n\n" ++ String.mk (joinChar '\n' ul) := by
  have hne : ul.isEmpty = false := by
    cases ul with
    | nil => cases h
    | cons a as => rfl
  have hjoin : (pyStrip (joinChar '\n' ul)).isEmpty = false := by
    rcases List.any_eq_true.mp h with ⟨L, hL, hLne⟩
    simp only [Bool.not_eq_true'] at hLne
    rcases exists_nonspace_of_pyStrip hLne with ⟨c, hc, hcp⟩
    exact pyStrip_not_empty ⟨c, mem_joinChar hL hc, hcp⟩
  unfold preservedFromLines
  rw [hne, h, hjoin]
  rfl

theorem preservedFromLines_neg {ul : List (List Char)}
    (h : ul.any (fun l => !(pyStrip l).isEmpty) = false) :
    preservedFromLines ul = "" := by
  unfold preservedFromLines
  rw [h]
  simp

/-- C1 (amended): for a task that is not skipped by the completed-task policy,
`export_task` writes exactly the newly rendered content followed by the hard
separator and the preserved region when the existing file has at least three
`---` marker lines and the region after the third one has a non-blank line;
in every other situation (no file, read error, fewer than three markers, or an
all-blank region) it writes the newly rendered content alone.  The original
claim quantifies over every task and so is refuted by a completed task with
inclusion disabled, for which `export_task` writes nothing at all
(`Todoist.export_task_skip_counterexample`). -/
theorem export_task_preserves (lib : PyLib) (cfg : ExportConfig)
    (task : TodoistTask) (project : TodoistProject)
    (comments : Option (List TodoistComment))
    (children : Option (List TodoistTask)) (sect : Option TodoistSection)
    (hskip : ¬(task.is_completed = true ∧ cfg.include_completed = false)) :
    (∀ s i3 rest, (sepIdxs (splitChar '\n' s.toList)).drop 2 = i3 :: rest →
      (((splitChar '\n' s.toList).drop (i3 + 1)).any
          (fun l => !(pyStrip l).isEmpty) = true →
        export_task lib cfg task project comments children sect (.content s) =
          (get_output_path cfg task project,
           some (format_task_content lib cfg task project comments children sect ++
             "\n\n---\n\n" ++
             String.mk (joinChar '\n' ((splitChar '\n' s.toList).drop (i3 + 1)))))) ∧
      (((splitChar '\n' s.toList).drop (i3 + 1)).any
          (fun l => !(pyStrip l).isEmpty) = false →
        export_task lib cfg task project comments children sect (.content s) =
          (get_output_path cfg task project,
           some (format_task_content lib cfg task project comments children sect)))) ∧
    (∀ s, (sepIdxs (splitChar '\n' s.toList)).length < 3 →
      export_task lib cfg task project comments children sect (.content s) =
        (get_output_path cfg task project,
         some (format_task_content lib cfg task project comments children sect))) ∧
    (export_task lib cfg task project comments children sect .absent =
      (get_output_path cfg task project,
       some (format_task_content lib cfg task project comments children sect))) ∧
    (export_task lib cfg task project comments children sect .readError =
      (get_output_path cfg task project,
       some (format_task_content lib cfg task project comments children sect))) := by
  have hcond : (task.is_completed && !cfg.include_completed) = false := by
    cases hc : task.is_completed <;> cases hi : cfg.include_completed <;> simp_all
  have hopen : ∀ existing, export_task lib cfg task project comments children sect existing =
      (get_output_path cfg task project,
       some (format_task_content lib cfg task project comments children sect ++
             preservedSuffix existing)) := by
    intro existing
    unfold export_task
    rw [hcond]
    rfl
  have hcontent : ∀ s, preservedSuffix (.content s) = preservedOf s := fun _ => rfl
  have hcons : ∀ (s : String) (i3 : Nat) (rest : List Nat),
      (sepIdxs (splitChar '\n' s.toList)).drop 2 = i3 :: rest →
      preservedOf s = preservedFromLines ((splitChar '\n' s.toList).drop (i3 + 1)) := by
    intro s i3 rest hdrop
    unfold preservedOf
    rw [hdrop]
  have hnil : ∀ s : String, (sepIdxs (splitChar '\n' s.toList)).drop 2 = [] →
      preservedOf s = "" := by
    intro s hdrop
    unfold preservedOf
    rw [hdrop]
  refine ⟨?_, ?_, ?_, ?_⟩
  · intro s i3 rest hdrop
    constructor
    · intro hany
      rw [hopen, hcontent, hcons s i3 rest hdrop, preservedFromLines_pos hany,
        ← String.append_assoc]
    · intro hany
      rw [hopen, hcontent, hcons s i3 rest hdrop, preservedFromLines_neg hany,
        String.append_empty]
  · intro s hlen
    rw [hopen, hcontent, hnil s (List.drop_eq_nil_of_le (by omega)),
      String.append_empty]
  · rw [hopen]
    rw [show preservedSuffix .absent = "" from rfl, String.append_empty]
  · rw [hopen]
    rw [show preservedSuffix .readError = "" from rfl, String.append_empty]


/-- C1 counterexample: the claim quantifies over every task; for a completed
task with completed-task inclusion disabled and a pre-existing file with three
separator lines and a non-blank region after the third (so the claim demands a
write of new content plus separator plus region), `export_task` performs no
write at all. -/
theorem export_task_skip_counterexample :
    (sepIdxs (splitChar '\n' ("---\na\n---\nb\n---\nuser note" : String).toList)).drop 2
      = [4] ∧
    ((splitChar '\n' ("---\na\n---\nb\n---\nuser note" : String).toList).drop 5).any
      (fun l => !(pyStrip l).isEmpty) = true ∧
    (export_task libId { output_dir := "out" }
      { id := "5", content := "t", project_id := "1", order := 1,
        is_completed := true, created_at := "c" }
      { id := "1", name := "P" } none none none
      (.content "---\na\n---\nb\n---\nuser note")).2 = none :=
  ⟨by decide, by decide, rfl⟩

theorem export_task_preserves_witness :
    export_task libId { output_dir := "out" }
      { id := "6", content := "t", project_id := "1", order := 1, created_at := "c" }
      { id := "1", name := "P" } none none none
      (.content "---\na\n---\nb\n---\nhello") =
    ("out/6.md",
     some (format_task_content libId { output_dir := "out" }
        { id := "6", content := "t", project_id := "1", order := 1, created_at := "c" }
        { id := "1", name := "P" } none none none ++
       "\n\n---\n\n" ++
       String.mk (joinChar '\n'
         ((splitChar '\n' ("---\na\n---\nb\n---\nhello" : String).toList).drop (4 + 1))))) :=
  ((export_task_preserves libId { output_dir := "out" }
      { id := "6", content := "t", project_id := "1", order := 1, created_at := "c" }
      { id := "1", name := "P" } none none none (by simp)).1
    "---\na\n---\nb\n---\nhello" 4 [] (by decide)).1 (by decide)


/-! ## Lemmas about the orchestrator's failure semantics (claim C4) -/

theorem export_task_write_some (lib : PyLib) (cfg : ExportConfig)
    (t : TodoistTask) (proj : TodoistProject) (cm : Option (List TodoistComment))
    (ch : Option (List TodoistTask)) (sect : Option TodoistSection) (ex : FileRead)
    (h : (t.is_completed && !cfg.include_completed) = false) :
    export_task lib cfg t proj cm ch sect ex =
      (get_output_path cfg t proj,
       some (format_task_content lib cfg t proj cm ch sect ++ preservedSuffix ex)) := by
  unfold export_task
  rw [h]
  rfl

theorem exportLoop_spec (lib : PyLib) (client : Client) (cfg : ExportConfig)
    (inc : Bool) (projects : List TodoistProject) (kids : String → List TodoistTask)
    (hinc : cfg.include_completed = inc) :
    ∀ (ts : List TodoistTask) (fs : String → FileRead) (n : Nat)
      (ws : List (String × String)),
      ∃ k new, exportLoop lib client cfg inc projects kids ts fs n ws = (n + k, ws ++ new)
        ∧ k = new.length := by
  intro ts
  induction ts with
  | nil =>
    intro fs n ws
    exact ⟨0, [], by rw [exportLoop]; simp, rfl⟩
  | cons t rest ih =>
    intro fs n ws
    rw [exportLoop]
    cases hl : lookupProject projects t.project_id with
    | none => exact ih fs n ws
    | some proj =>
      dsimp only
      cases hskip : (t.is_completed && !inc) with
      | true =>
        rw [if_pos rfl]
        exact ih fs n ws
      | false =>
        rw [if_neg Bool.false_ne_true]
        cases hwf : client.write_fails t.id with
        | true =>
          rw [if_pos rfl]
          exact ih fs n ws
        | false =>
          rw [if_neg Bool.false_ne_true]
          rw [export_task_write_some lib cfg t proj _ _ _ _ (by rw [hinc]; exact hskip)]
          generalize (format_task_content lib cfg t proj (commentsFor client cfg t.id)
              (some (kids t.id)) none ++
            preservedSuffix (fs (get_output_path cfg t proj))) = C
          generalize get_output_path cfg t proj = P
          obtain ⟨k, new, h1, h2⟩ := ih (fsWrite fs P C) (n + 1) (ws ++ [(P, C)])
          refine ⟨k + 1, (P, C) :: new, h1.trans ?_, by simp [h2]⟩
          rw [List.append_assoc]
          rw [show (n + 1) + k = n + (k + 1) from by omega]
          rfl

theorem runWithTasks_count (lib : PyLib) (client : Client) (cfg : ExportConfig)
    (inc : Bool) (projects : List TodoistProject) (tasks : List TodoistTask)
    (hinc : cfg.include_completed = inc) :
    (runWithTasks lib client cfg inc projects tasks).1 =
      (runWithTasks lib client cfg inc projects tasks).2.length := by
  unfold runWithTasks
  split
  · rfl
  · obtain ⟨k, new, h1, h2⟩ := exportLoop_spec lib client cfg inc projects
      (childrenOf tasks) hinc (tasks.filter (fun t => !truthyOpt t.parent_id))
      client.fs0 0 []
    rw [h1]
    simpa using h2

/-- C4 counterexample: the claim asserts only two abort conditions and that
every other failure is caught; but an error from the primary `get_tasks` fetch
propagates and aborts the run, with no project-name filter given and the
projects fetch succeeding. -/
theorem export_aborts_counterexample :
    export_tasks_internal libId
      { projects := .ok [{ id := "1", name := "P" }], tasks_result := .error (),
        completed_result := .ok [], comments_result := fun _ => .ok [],
        write_fails := fun _ => false, fs0 := fun _ => .absent }
      { output_dir := "out" } none none false = .error () := rfl

/-- C4 (amended): `export_tasks_internal` aborts in exactly three cases — the
projects fetch fails, a project-name filter (given without an explicit id)
matches no project case-insensitively, or the primary tasks fetch fails.
Every other modelled failure (completed-tasks fetch, a task's comments fetch,
exporting one note) is absorbed; on success the returned count equals the
number of notes written (given that the caller passes the same
include-completed value in the config and the argument, as `src/cli.py` and
`src/scheduler.py` do), and an empty merged task list returns a count of zero
with no writes rather than an error. -/
theorem export_aborts_iff (lib : PyLib) (client : Client) (cfg : ExportConfig)
    (pid pname : Option String) (inc : Bool)
    (hinc : cfg.include_completed = inc) :
    ((export_tasks_internal lib client cfg pid pname inc = .error ()) ↔
      (client.projects = .error () ∨
       ∃ projects, client.projects = .ok projects ∧
         (resolveTarget projects pid pname = .error () ∨
          (resolveTarget projects pid pname ≠ .error () ∧
           client.tasks_result = .error ())))) ∧
    (∀ projects, resolveTarget projects pid pname = .error () ↔
      ((truthyOpt pname && !truthyOpt pid) = true ∧
       projects.filter (fun p => pyLower p.name == pyLower (pname.getD "")) = [])) ∧
    (∀ n ws, export_tasks_internal lib client cfg pid pname inc = .ok (n, ws) →
      n = ws.length) ∧
    (∀ projects, runWithTasks lib client cfg inc projects [] = (0, [])) := by
  refine ⟨?_, ?_, ?_, ?_⟩
  · unfold export_tasks_internal
    cases hp : client.projects with
    | error e => cases e; simp
    | ok projects =>
      cases hr : resolveTarget projects pid pname with
      | error e =>
        cases e
        simp [hp, hr]
      | ok target =>
        cases ht : client.tasks_result with
        | error e => cases e; simp [hp, hr]
        | ok tasks0 => simp [hp, hr, ht]
  · intro projects
    unfold resolveTarget
    cases hq : (truthyOpt pname && !truthyOpt pid) with
    | true =>
      rw [if_pos rfl]
      cases hf : projects.filter (fun p => pyLower p.name == pyLower (pname.getD "")) with
      | nil => simp
      | cons m ms => simp
    | false =>
      rw [if_neg Bool.false_ne_true]
      simp
  · intro n ws h
    unfold export_tasks_internal at h
    split at h
    · exact absurd h (by simp)
    · split at h
      · exact absurd h (by simp)
      · split at h
        · exact absurd h (by simp)
        · rename_i _x1 projects _hp _x2 _target _hr _x3 tasks0 _ht
          have h' := Except.ok.inj h
          have hrun := runWithTasks_count lib client cfg inc projects
            (mergedTasks client inc tasks0) hinc
          rw [h'] at hrun
          exact hrun
  · intro projects
    rfl

theorem export_aborts_iff_witness :
    runWithTasks libId
      { projects := .ok [], tasks_result := .ok [], completed_result := .ok [],
        comments_result := fun _ => .ok [], write_fails := fun _ => false,
        fs0 := fun _ => .absent }
      { output_dir := "out" } false [] [] = (0, []) :=
  (export_aborts_iff libId
    { projects := .ok [], tasks_result := .ok [], completed_result := .ok [],
      comments_result := fun _ => .ok [], write_fails := fun _ => false,
      fs0 := fun _ => .absent }
    { output_dir := "out" } none none false rfl).2.2.2 []


/-! ## Lemmas about subtask grouping and rendering (claim C5) -/

/-- Python `sorted` is a stable sort: the subsequence of children with any
fixed `order` key is exactly the fetch-order subsequence with that key. -/
theorem insertionSort_order_stable (cs : List TodoistTask) (k : Int) :
    (List.insertionSort orderRel cs).filter (fun c => c.order == k) =
      cs.filter (fun c => c.order == k) := by
  have hpw : (cs.filter (fun c => c.order == k)).Pairwise orderRel := by
    apply List.pairwise_of_forall_mem_list
    intro a ha b hb
    have ha' := (List.mem_filter.mp ha).2
    have hb' := (List.mem_filter.mp hb).2
    simp only [beq_iff_eq] at ha' hb'
    unfold orderRel
    omega
  have hsub := List.sublist_insertionSort hpw (List.filter_sublist cs)
  have h1 := hsub.filter (fun c => c.order == k)
  rw [List.filter_eq_self.mpr (fun a ha => (List.mem_filter.mp ha).2)] at h1
  have hperm : List.Perm
      ((List.insertionSort orderRel cs).filter (fun c => c.order == k))
      (cs.filter (fun c => c.order == k)) :=
    (List.perm_insertionSort orderRel cs).filter _
  exact (h1.eq_of_length hperm.length_eq.symm).symm

/-- The rendered child order is ascending in the `order` key. -/
theorem insertionSort_order_sorted (cs : List TodoistTask) :
    (List.insertionSort orderRel cs).Pairwise (fun a b => a.order ≤ b.order) :=
  List.sorted_insertionSort orderRel cs

theorem export_task_none (lib : PyLib) (cfg : ExportConfig) (t : TodoistTask)
    (proj : TodoistProject) (cm : Option (List TodoistComment))
    (ch : Option (List TodoistTask)) (sect : Option TodoistSection) (ex : FileRead)
    (h : (t.is_completed && !cfg.include_completed) = true) :
    export_task lib cfg t proj cm ch sect ex = (get_output_path cfg t proj, none) := by
  unfold export_task
  rw [h]
  rfl

/-- Provenance of the write log: every write performed by the export loop that
was not already in the accumulator comes from a task of the iterated list whose
project resolves, and its content is the rendered note of that task (with the
task's children and no section) plus the preserved user suffix. -/
theorem exportLoop_writes (lib : PyLib) (client : Client) (cfg : ExportConfig)
    (inc : Bool) (projects : List TodoistProject) (kids : String → List TodoistTask) :
    ∀ (ts : List TodoistTask) (fs : String → FileRead) (n : Nat)
      (ws : List (String × String)) (pc : String × String),
      pc ∈ (exportLoop lib client cfg inc projects kids ts fs n ws).2 →
      pc ∈ ws ∨ ∃ t, t ∈ ts ∧ ∃ proj,
        lookupProject projects t.project_id = some proj ∧ ∃ fr,
        pc = (get_output_path cfg t proj,
          format_task_content lib cfg t proj (commentsFor client cfg t.id)
            (some (kids t.id)) none ++ preservedSuffix fr) := by
  intro ts
  induction ts with
  | nil =>
    intro fs n ws pc h
    exact Or.inl h
  | cons t rest ih =>
    intro fs n ws pc h
    have step : ∀ (fs' : String → FileRead) (n' : Nat) (ws' : List (String × String)),
        pc ∈ (exportLoop lib client cfg inc projects kids rest fs' n' ws').2 →
        pc ∈ ws' ∨ ∃ t', t' ∈ t :: rest ∧ ∃ proj,
          lookupProject projects t'.project_id = some proj ∧ ∃ fr,
          pc = (get_output_path cfg t' proj,
            format_task_content lib cfg t' proj (commentsFor client cfg t'.id)
              (some (kids t'.id)) none ++ preservedSuffix fr) := by
      intro fs' n' ws' h'
      rcases ih fs' n' ws' pc h' with h'' | ⟨t', ht', rest'⟩
      · exact Or.inl h''
      · exact Or.inr ⟨t', List.mem_cons_of_mem _ ht', rest'⟩
    rw [exportLoop] at h
    cases hl : lookupProject projects t.project_id with
    | none =>
      rw [hl] at h
      exact step fs n ws h
    | some proj =>
      rw [hl] at h
      dsimp only at h
      cases hskip : (t.is_completed && !inc) with
      | true =>
        rw [hskip] at h
        exact step fs n ws h
      | false =>
        rw [hskip] at h
        cases hwf : client.write_fails t.id with
        | true =>
          rw [hwf] at h
          exact step fs n ws h
        | false =>
          rw [hwf] at h
          rcases he : export_task lib cfg t proj (commentsFor client cfg t.id)
              (some (kids t.id)) none (fs (get_output_path cfg t proj)) with ⟨path, ow⟩
          rw [he] at h
          cases ow with
          | none => exact step fs (n + 1) ws h
          | some content =>
            rcases step (fsWrite fs path content) (n + 1) (ws ++ [(path, content)]) h
              with h' | h'
            swap
            · exact Or.inr h'
            · rcases List.mem_append.mp h' with h'' | h''
              · exact Or.inl h''
              · right
                refine ⟨t, List.mem_cons_self _ _, proj, hl,
                  fs (get_output_path cfg t proj), ?_⟩
                rw [List.mem_singleton.mp h'']
                cases hc : (t.is_completed && !cfg.include_completed) with
                | true =>
                  rw [export_task_none lib cfg t proj _ _ _ _ hc] at he
                  rw [Prod.mk.injEq] at he
                  cases he.2
                | false =>
                  rw [export_task_write_some lib cfg t proj _ _ _ _ hc] at he
                  rw [Prod.mk.injEq] at he
                  rw [← he.1, ← Option.some.inj he.2]


/-- C5: a fetched task with a non-empty `parent_id` never produces its own
note — every write of a run comes from a task with a falsy `parent_id`, whose
note is rendered with exactly its children (`childrenOf`) as checkbox lines —
and within a parent's Subtasks section the child lines are the stable
`order`-ascending sort of the children (ties keep fetch order), each checkbox
checked exactly when the child's completion flag is set. -/
theorem child_tasks_spec :
    (∀ (lib : PyLib) (client : Client) (cfg : ExportConfig) (inc : Bool)
       (projects : List TodoistProject) (tasks : List TodoistTask)
       (pc : String × String),
       pc ∈ (runWithTasks lib client cfg inc projects tasks).2 →
       ∃ t, t ∈ tasks ∧ truthyOpt t.parent_id = false ∧
         ∃ proj fr, lookupProject projects t.project_id = some proj ∧
           pc = (get_output_path cfg t proj,
             format_task_content lib cfg t proj (commentsFor client cfg t.id)
               (some (childrenOf tasks t.id)) none ++ preservedSuffix fr)) ∧
    (∀ cs : List TodoistTask,
       subtasksLines cs = ["## Subtasks", ""] ++
         (List.insertionSort orderRel cs).map childLine ++ [""]) ∧
    (∀ cs : List TodoistTask,
       (List.insertionSort orderRel cs).Pairwise (fun a b => a.order ≤ b.order)) ∧
    (∀ (cs : List TodoistTask) (k : Int),
       (List.insertionSort orderRel cs).filter (fun c => c.order == k) =
         cs.filter (fun c => c.order == k)) ∧
    (∀ c : TodoistTask, childLine c =
       "- " ++ (if c.is_completed then "[x]" else "[ ]") ++ " " ++ c.content) := by
  refine ⟨?_, fun cs => rfl, insertionSort_order_sorted, insertionSort_order_stable,
    fun c => rfl⟩
  intro lib client cfg inc projects tasks pc h
  unfold runWithTasks at h
  split at h
  · exact absurd h (List.not_mem_nil pc)
  · rcases exportLoop_writes lib client cfg inc projects (childrenOf tasks)
        (tasks.filter (fun t => !truthyOpt t.parent_id)) client.fs0 0 [] pc h
      with h' | ⟨t, ht, proj, hproj, fr, hpc⟩
    · cases h'
    · have hmem := List.mem_filter.mp ht
      exact ⟨t, hmem.1, by simpa using hmem.2, proj, fr, hproj, hpc⟩

def projW5 : TodoistProject := { id := "1", name := "W" }

def parentW5 : TodoistTask :=
  { id := "10", content := "parent", project_id := "1", order := 1,
    created_at := "c" }

def childW5 : TodoistTask :=
  { id := "11", content := "child", project_id := "1", parent_id := some "10",
    order := 2, created_at := "c" }

def clientW5 : Client :=
  { projects := .ok [projW5], tasks_result := .ok [parentW5, childW5],
    completed_result := .ok [], comments_result := fun _ => .ok [],
    write_fails := fun _ => false, fs0 := fun _ => .absent }

def cfgW5 : ExportConfig := { output_dir := "out", include_comments := false }

def pcW5 : String × String :=
  (runWithTasks libId clientW5 cfgW5 false [projW5] [parentW5, childW5]).2.head!

set_option maxRecDepth 16384 in
theorem child_tasks_spec_witness :
    ∃ t, t ∈ [parentW5, childW5] ∧ truthyOpt t.parent_id = false ∧
      ∃ proj fr, lookupProject [projW5] t.project_id = some proj ∧
        pcW5 = (get_output_path cfgW5 t proj,
          format_task_content libId cfgW5 t proj (commentsFor clientW5 cfgW5 t.id)
            (some (childrenOf [parentW5, childW5] t.id)) none ++ preservedSuffix fr) :=
  child_tasks_spec.1 libId clientW5 cfgW5 false [projW5] [parentW5, childW5] pcW5
    (List.head!_mem_self (by decide))


/-! ## Claim C9: sections are never resolved by the run (`src/core.py`) -/

def cfg9 : ExportConfig := { output_dir := "out", include_comments := false }

/-- The task of `tests/test_core.py::test_export_tasks_with_section`: a
top-level task carrying a section identifier. -/
def task9 : TodoistTask :=
  { id := "456", content := "Test Task with Section",
    description := "Test description", project_id := "123",
    section_id := some "section_123", order := 1, priority := 3,
    labels := ["test"], url := "https://example.com/task/456",
    created_at := "2024-01-01T00:00:00Z" }

def proj9 : TodoistProject := { id := "123", name := "Test Project" }

def client9 : Client :=
  { projects := .ok [proj9], tasks_result := .ok [task9],
    completed_result := .ok [], comments_result := fun _ => .ok [],
    write_fails := fun _ => false, fs0 := fun _ => .absent }

set_option maxRecDepth 100000 in
/-- C9 (code bug): `export_tasks_internal` never resolves sections — it calls
`export_task` without a section argument (`src/core.py` line 119; the
`Client` operations it exercises include no `get_sections` call at all), so
the note exported for a task carrying a section identifier is rendered with
`none` as its section and its metadata block contains no `section:` or
`section_id:` line — although `format_frontmatter` renders both when a section
is passed, and `tests/test_core.py::test_export_tasks_with_section` asserts
that `get_sections` is called and the resolved section forwarded to
`export_task`. -/
theorem section_fields_missing :
    task9.section_id = some "section_123" ∧
    export_tasks_internal libId client9 cfg9 none none false =
      .ok (1, [(get_output_path cfg9 task9 proj9,
        format_task_content libId cfg9 task9 proj9 none (some []) none ++ "")]) ∧
    (frontmatterLines libId cfg9 task9 proj9 none).countP
      (fun l => ("section".toList).isPrefixOf l.toList) = 0 :=
  ⟨rfl, rfl, by decide⟩

/-! ## Claim C10: orphaned children are silently dropped -/

/-- The export loop only looks at a `kids` function through the ids of the
tasks it iterates over. -/
theorem exportLoop_congr_kids (lib : PyLib) (client : Client) (cfg : ExportConfig)
    (inc : Bool) (projects : List TodoistProject)
    (kids1 kids2 : String → List TodoistTask) :
    ∀ (ts : List TodoistTask), (∀ t ∈ ts, kids1 t.id = kids2 t.id) →
    ∀ (fs : String → FileRead) (n : Nat) (ws : List (String × String)),
      exportLoop lib client cfg inc projects kids1 ts fs n ws =
        exportLoop lib client cfg inc projects kids2 ts fs n ws := by
  intro ts
  induction ts with
  | nil => intro _ fs n ws; rfl
  | cons t rest ih =>
    intro hk fs n ws
    have hkt := hk t (List.mem_cons_self _ _)
    have hkr := fun t' ht' => hk t' (List.mem_cons_of_mem _ ht')
    rw [exportLoop, exportLoop]
    cases hl : lookupProject projects t.project_id with
    | none => exact ih hkr fs n ws
    | some proj =>
      dsimp only
      cases hskip : (t.is_completed && !inc) with
      | true => exact ih hkr fs n ws
      | false =>
        cases hwf : client.write_fails t.id with
        | true => exact ih hkr fs n ws
        | false =>
          rw [hkt]
          rcases he : export_task lib cfg t proj (commentsFor client cfg t.id)
              (some (kids2 t.id)) none (fs (get_output_path cfg t proj)) with ⟨path, ow⟩
          cases ow with
          | none => exact ih hkr fs (n + 1) ws
          | some content =>
            exact ih hkr (fsWrite fs path content) (n + 1) (ws ++ [(path, content)])

/-- C10: a fetched task whose `parent_id` is non-empty but equals no fetched
task's id is silently dropped — the run's count and write log are identical
with and without it: it is never written as its own note, never appears as a
subtask line in any written note, and never contributes to the count. -/
theorem orphan_dropped (lib : PyLib) (client : Client) (cfg : ExportConfig)
    (inc : Bool) (projects : List TodoistProject) (l1 l2 : List TodoistTask)
    (o : TodoistTask) (p : String)
    (hp : o.parent_id = some p) (hne : p ≠ "")
    (hnid : ∀ t ∈ l1 ++ o :: l2, t.id ≠ p) :
    runWithTasks lib client cfg inc projects (l1 ++ o :: l2) =
      runWithTasks lib client cfg inc projects (l1 ++ l2) := by
  have htruthy : truthyOpt o.parent_id = true := by
    rw [hp]
    unfold truthyOpt
    rw [Bool.not_eq_true']
    cases hie : p.isEmpty with
    | false => rfl
    | true => exact absurd ((String.isEmpty_iff p).mp hie) hne
  have hfilter : (l1 ++ o :: l2).filter (fun t => !truthyOpt t.parent_id) =
      (l1 ++ l2).filter (fun t => !truthyOpt t.parent_id) := by
    simp [List.filter_append, List.filter_cons, htruthy]
  have hkids : ∀ t ∈ (l1 ++ l2).filter (fun t => !truthyOpt t.parent_id),
      childrenOf (l1 ++ o :: l2) t.id = childrenOf (l1 ++ l2) t.id := by
    intro t ht
    have htid : t.id ≠ p := hnid t (by
      rcases List.mem_append.mp (List.mem_filter.mp ht).1 with h | h
      · exact List.mem_append_left _ h
      · exact List.mem_append_right _ (List.mem_cons_of_mem _ h))
    unfold childrenOf
    rw [List.filter_append, List.filter_append, List.filter_cons]
    have ho : (truthyOpt o.parent_id && o.parent_id == some t.id) = false := by
      have h1 : truthyOpt (some p) = true := by
        rw [← hp]
        exact htruthy
      rw [hp, h1, Bool.true_and, beq_eq_false_iff_ne]
      intro hq
      exact htid (Option.some.inj hq).symm
    rw [ho]
    simp
  cases hl12 : (l1 ++ l2).isEmpty with
  | true =>
    rw [List.isEmpty_iff] at hl12
    obtain ⟨h1, h2⟩ := List.append_eq_nil.mp hl12
    subst h1
    subst h2
    unfold runWithTasks
    simp only [List.nil_append, List.isEmpty_cons, List.isEmpty_nil, if_true]
    rw [if_neg Bool.false_ne_true]
    have hfo : ([o] : List TodoistTask).filter (fun t => !truthyOpt t.parent_id) = [] := by
      simp [htruthy]
    rw [hfo]
    rfl
  | false =>
    have hne1 : (l1 ++ o :: l2).isEmpty = false := by
      cases l1 <;> rfl
    unfold runWithTasks
    rw [hne1, hl12]
    rw [if_neg Bool.false_ne_true, if_neg Bool.false_ne_true]
    rw [hfilter]
    exact exportLoop_congr_kids lib client cfg inc projects
      (childrenOf (l1 ++ o :: l2)) (childrenOf (l1 ++ l2))
      ((l1 ++ l2).filter (fun t => !truthyOpt t.parent_id)) hkids client.fs0 0 []

def orphanW : TodoistTask :=
  { id := "20", content := "orphan", project_id := "1", parent_id := some "99",
    order := 3, created_at := "c" }

theorem orphan_dropped_witness :
    runWithTasks libId clientW5 cfgW5 false [projW5] [parentW5, orphanW] =
      runWithTasks libId clientW5 cfgW5 false [projW5] [parentW5] :=
  orphan_dropped libId clientW5 cfgW5 false [projW5] [parentW5] [] orphanW "99"
    rfl (by decide) (by decide)

end Todoist
